import Mathlib

/-!
Verification development for the flexi_logger core (src/lib.rs).

The Rust source is shallowly embedded: pure functions become Lean
functions, the stateful `OptLineWriter` becomes explicit state passing,
and the filesystem / regex / clock interactions of the original are
supplied through an explicit oracle record `FS`.  Machine integers
(`usize`) are modelled as `Nat` (none of the quantities involved can
overflow in the scenarios considered).  Rust panics are modelled by an
explicit `panicked` flag (or `Option` results).
-/

namespace FlexiSpec

/-! ## Log levels (mirrors the external log crate's LogLevel / LogLevelFilter)

`LogLevel` has discriminants Error=1 .. Trace=5; `LogLevelFilter` adds Off=0.
Comparisons between them are by discriminant, as in the log crate. -/

inductive LogLevel where
  | Error | Warn | Info | Debug | Trace
deriving DecidableEq, BEq

inductive LogLevelFilter where
  | Off | Error | Warn | Info | Debug | Trace
deriving DecidableEq, BEq

def LogLevel.toNat : LogLevel → Nat
  | .Error => 1 | .Warn => 2 | .Info => 3 | .Debug => 4 | .Trace => 5

def LogLevelFilter.toNat : LogLevelFilter → Nat
  | .Off => 0 | .Error => 1 | .Warn => 2 | .Info => 3 | .Debug => 4 | .Trace => 5

/-- `level <= directive.level` in the source: the cross PartialOrd between
LogLevel and LogLevelFilter compares discriminants. -/
def levelLE (l : LogLevel) (f : LogLevelFilter) : Bool :=
  decide (l.toNat ≤ f.toNat)

/-- `LogLevelFilter::max()` of the log crate: the most permissive filter. -/
def llf_max : LogLevelFilter := .Trace

/-- Binary maximum by discriminant; mirrors the derived `Ord` of LogLevelFilter. -/
def llfMax (a b : LogLevelFilter) : LogLevelFilter :=
  if a.toNat ≤ b.toNat then b else a

/-! ## String helpers

Rust's `str::split`, `str::trim`, `starts_with`, `file_stem`, `rsplit` and
`usize` parsing, modelled by structural recursion over the character list
so that every definition evaluates inside the kernel. -/

/-- Splitting on a separator character; mirrors Rust `str::split(sep)`
(keeps empty segments; the result is never empty). -/
def splitCharAux (sep : Char) : List Char → List Char → List (List Char)
  | [], acc => [acc.reverse]
  | c :: cs, acc =>
      if c = sep then acc.reverse :: splitCharAux sep cs []
      else splitCharAux sep cs (c :: acc)

def splitChar (sep : Char) (s : String) : List String :=
  (splitCharAux sep s.data []).map String.mk

/-- Rust `target.starts_with(name)`. -/
def strStartsWith (target name : String) : Bool :=
  name.data.isPrefixOf target.data

/-- Whitespace as trimmed by Rust `str::trim` (ASCII fragment; sufficient here). -/
def isWS (c : Char) : Bool :=
  c = ' ' || c = '\t' || c = '\n' || c = '\r'

/-- Rust `str::trim`. -/
def trimStr (s : String) : String :=
  String.mk (((s.data.dropWhile isWS).reverse.dropWhile isWS).reverse)

def digitsToNat (cs : List Char) : Nat :=
  cs.foldl (fun n c => n * 10 + (c.toNat - '0'.toNat)) 0

/-- Rust `str::parse::<usize>()`: an optional leading `+` followed by one or
more ASCII digits (overflow is not modelled; irrelevant at the sizes used). -/
def parseUsize (s : String) : Option Nat :=
  let cs := match s.data with
    | '+' :: rest => rest
    | cs => cs
  if cs.isEmpty then none
  else if cs.all Char.isDigit then some (digitsToNat cs) else none

/-- ASCII lowercasing, as used by `eq_ignore_ascii_case`. -/
def asciiLower (s : String) : String :=
  String.mk (s.data.map Char.toLower)

/-- Modelled from the spec: the external log crate's `FromStr` for
`LogLevelFilter` (not part of this repository's sources) — level tokens are
case-insensitive names off|error|warn|info|debug|trace or their ordinal
numbers 0-5. -/
def llf_from_str (s : String) : Option LogLevelFilter :=
  match asciiLower s with
  | "off" => some .Off
  | "error" => some .Error
  | "warn" => some .Warn
  | "info" => some .Info
  | "debug" => some .Debug
  | "trace" => some .Trace
  | _ =>
    match parseUsize s with
    | some 0 => some .Off
    | some 1 => some .Error
    | some 2 => some .Warn
    | some 3 => some .Info
    | some 4 => some .Debug
    | some 5 => some .Trace
    | _ => none

/-! ## Directives and the specification parser (parse_logging_spec) -/

structure LogDirective where
  name : Option String
  level : LogLevelFilter
deriving DecidableEq

/-- Diagnostics emitted via `print_err!` during parsing (one constructor per
call site in `parse_logging_spec`). -/
inductive Diag where
  | tooManySlashes (spec : String)
  | invalidLevel (token : String)
  | invalidRule (rule : String)
  | invalidRegex (pat : String)
deriving DecidableEq

inductive RuleResult where
  | skip
  | dir (name : Option String) (level : LogLevelFilter)
  | bad (d : Diag)
deriving DecidableEq

/-- One iteration of the `for s in m.split(',')` loop body of
`parse_logging_spec`. -/
def parseRule (s : String) : RuleResult :=
  if s.length = 0 then .skip
  else
    match splitChar '=' s with
    | [part0] =>
      match llf_from_str part0 with
      | some num => .dir none num
      | none => .dir (some part0) llf_max
    | [part0, part1raw] =>
      let part1 := trimStr part1raw
      if part1 = "" then .dir (some part0) llf_max
      else
        match llf_from_str part1 with
        | some num => .dir (some part0) num
        | none => .bad (.invalidLevel part1)
    | _ => .bad (.invalidRule s)

/-- The rule loop: directives are pushed in order, diagnostics printed in order. -/
def processMods : List String → List LogDirective × List Diag
  | [] => ([], [])
  | s :: rest =>
    let (ds, gs) := processMods rest
    match parseRule s with
    | .skip => (ds, gs)
    | .dir n l => (⟨n, l⟩ :: ds, gs)
    | .bad d => (ds, d :: gs)

/-- `Regex::new(filter)`: compilation success of the external regex crate is
supplied by the oracle `regexOk`; on failure a diagnostic is printed and the
filter is dropped. -/
def compileFilter (regexOk : String → Bool) : Option String → Option String × List Diag
  | none => (none, [])
  | some f => if regexOk f then (some f, []) else (none, [.invalidRegex f])

structure ParseResult where
  dirs : List LogDirective
  filter : Option String
  diags : List Diag
deriving DecidableEq

/-- `parse_logging_spec` from src/lib.rs: split on `/` (more than one `/` is a
whole-parse failure), parse the comma-separated rules, then compile the
optional content filter. -/
def parse_logging_spec (regexOk : String → Bool) (spec : String) : ParseResult :=
  let parts := splitChar '/' spec
  if 3 ≤ parts.length then ⟨[], none, [.tooManySlashes spec]⟩
  else
    let (ds, gs) :=
      match parts.head? with
      | some m => processMods (splitChar ',' m)
      | none => ([], [])
    let (fl, gs2) := compileFilter regexOk parts[1]?
    ⟨ds, fl, gs ++ gs2⟩

/-! ## The matcher: FlexiLogger::fl_enabled -/

/-- Does a directive apply to `target`?  (`None` always applies; `Some name`
applies when `target.starts_with(name)`.) -/
def dirMatches (d : LogDirective) (target : String) : Bool :=
  match d.name with
  | some name => strStartsWith target name
  | none => true

/-- The loop body of `fl_enabled`: the list passed here is
`directives.iter().rev()`; the first applicable directive returns
`level <= directive.level`, and falling off the end returns false. -/
def fl_enabled_aux (level : LogLevel) (target : String) : List LogDirective → Bool
  | [] => false
  | d :: rest =>
    match d.name with
    | some name =>
      if strStartsWith target name then levelLE level d.level
      else fl_enabled_aux level target rest
    | none => levelLE level d.level

/-- `FlexiLogger::fl_enabled`: scan the pre-sorted directive vector from the
end (longest prefixes first). -/
def fl_enabled (directives : List LogDirective) (level : LogLevel) (target : String) : Bool :=
  fl_enabled_aux level target directives.reverse

/-! ## init: sorting the directives and setting the facade's max level -/

/-- The sort key used in `init`: name length, with `None` as 0. -/
def LogDirective.nameLen (d : LogDirective) : Nat :=
  match d.name with
  | some n => n.length
  | none => 0

/-- Insert after all entries of smaller-or-equal key (so that, folded from the
left, the whole sort is stable, as Rust's `sort_by` is). -/
def insertSorted (d : LogDirective) : List LogDirective → List LogDirective
  | [] => [d]
  | e :: rest =>
    if d.nameLen < e.nameLen then d :: e :: rest
    else e :: insertSorted d rest

/-- `directives.sort_by(... name length ...)` from `init`: a stable sort by
ascending name length. -/
def sortDirectives (l : List LogDirective) : List LogDirective :=
  l.foldl (fun acc d => insertSorted d acc) []

/-- Lines 493-499 of src/lib.rs for a programmatically supplied spec string:
parse, then sort ascending by name length. -/
def initDirectives (regexOk : String → Bool) (spec : String) : List LogDirective :=
  sortDirectives (parse_logging_spec regexOk spec).dirs

/-- Lines 501-505 of src/lib.rs: `directives.iter().map(|d| d.level).max()`
with `unwrap_or(LogLevelFilter::Off)`. -/
def initMaxLevel (dirs : List LogDirective) : LogLevelFilter :=
  match dirs.map (fun d => d.level) with
  | [] => .Off
  | l :: ls => ls.foldl llfMax l

/-- Modelled from the spec: the logging facade (the external log crate, not
part of this repository's sources) rejects a record before it reaches the
logger when its level exceeds the global maximum level that `init` installs
via `max_level.set`. -/
def facadeAccepts (maxLevel : LogLevelFilter) (l : LogLevel) : Bool :=
  decide (l.toNat ≤ maxLevel.toNat)

/-! ## File names and the rolling index scan -/

/-- The last path component of `p` (separator `/`). -/
def lastComponent (p : String) : String :=
  (splitChar '/' p).getLastD p

/-- Rust `Path::file_stem`: the last component with the final `.extension`
removed (a name whose only `.` is leading keeps it). -/
def fileStem (p : String) : String :=
  let comp := lastComponent p
  match comp.data.reverse.dropWhile (fun c => c ≠ '.') with
  | [] => comp
  | _ :: rest => if rest.isEmpty then comp else String.mk rest.reverse

/-- `get_filename_base`: `<directory>/<program name>[_<discriminant>]`;
the program name is `file_stem` of argv[0]. -/
def get_filename_base (s_directory : String) (o_discriminant : Option String)
    (argv0 : String) : String :=
  let progname := fileStem argv0
  let filename := s_directory ++ "/" ++ progname
  match o_discriminant with
  | some s_d => filename ++ "_" ++ s_d
  | none => filename

/-- `get_filename`: base plus `_<roll_idx>` when rolling, else the strftime
timestamp (modelled by the oracle string `now`, which includes the leading
underscore of the `"_%Y-%m-%d_%H-%M-%S"` format), plus `.<suffix>`. -/
def get_filename (s_filename_base : String) (do_rolling : Bool) (roll_idx : Nat)
    (o_suffix : Option String) (now : String) : String :=
  let filename :=
    if do_rolling then s_filename_base ++ "_" ++ toString roll_idx
    else s_filename_base ++ now
  match o_suffix with
  | some suffix => filename ++ "." ++ suffix
  | none => filename

/-- `get_filename_pattern`: the glob pattern `<base>_*[.<suffix>]`. -/
def get_filename_pattern (s_filename_base : String) (o_suffix : Option String) : String :=
  let filename := s_filename_base ++ "_*"
  match o_suffix with
  | some suffix => filename ++ "." ++ suffix
  | none => filename

/-- Rust `filename.rsplit("_r").next().unwrap()`: the suffix of `cs` after the
last occurrence of `sep`, or all of `cs` when `sep` does not occur. -/
def afterLastSub (sep cs : List Char) : List Char :=
  match (cs.tails.filter (fun t => sep.isPrefixOf t)).getLast? with
  | some t => t.drop sep.length
  | none => cs

/-- The per-path body of the glob loop in `get_next_roll_idx`:
`file_stem`, then `rsplit("_r").next()`, then `parse().unwrap_or(0)`. -/
def parseRollIdx (p : String) : Nat :=
  let stem := fileStem p
  let lastPart := String.mk (afterLastSub "_r".data stem.data)
  (parseUsize lastPart).getD 0

/-- `get_next_roll_idx`: the maximum parsed index over the glob listing, plus
one.  The directory listing itself is IO and is supplied as `foundPaths`
(the panicking `glob` Err branch and the debug prints are not modelled). -/
def get_next_roll_idx (foundPaths : List String) : Nat :=
  (foundPaths.foldl (fun acc p => max acc (parseRollIdx p)) 0) + 1

/-! ## The rolling writer (OptLineWriter) and the logging path

IO interactions (filesystem, regex matching, clock, argv) are supplied by an
explicit oracle so that every definition stays executable. -/

structure FS where
  argv0 : String
  now : String
  dirIsDir : String → Bool
  globResult : String → List String
  createOk : String → Bool
  writeOk : String → Bool
  regexIsMatch : String → String → Bool

structure LogRecord where
  level : LogLevel
  target : String
  args : String
  modulePath : String
deriving DecidableEq

structure LogConfig where
  log_to_file : Bool
  print_message : Bool
  duplicate_error : Bool
  duplicate_info : Bool
  format : LogRecord → String
  directory : Option String
  suffix : Option String
  rollover_size : Option Nat
  o_discriminant : Option String

/-- `LogConfig::new()` defaults. -/
def LogConfig.default : LogConfig where
  log_to_file := false
  print_message := true
  duplicate_error := true
  duplicate_info := false
  format := fun r => r.args
  directory := none
  suffix := some "log"
  rollover_size := none
  o_discriminant := none

/-- `default_format`: `<LEVEL> [<module_path>] <args>`. -/
def LogLevel.name : LogLevel → String
  | .Error => "ERROR" | .Warn => "WARN" | .Info => "INFO"
  | .Debug => "DEBUG" | .Trace => "TRACE"

def default_format (r : LogRecord) : String :=
  r.level.name ++ " [" ++ r.modulePath ++ "] " ++ r.args

/-- The `OptLineWriter` state.  `olw` holds the file name of the mounted
`LineWriter` (or `none` when unmounted). -/
structure OptLineWriter where
  olw : Option String
  o_filename_base : Option String
  use_rolling : Bool
  written_bytes : Nat
  roll_idx : Nat
deriving DecidableEq

/-- Result of `mount_linewriter`: `none` in `st?` models the panic of
`File::create(path).unwrap()`; `msgs` are the `println!("Log is written to
...")` lines (emitted before the create). -/
structure MountResult where
  st? : Option OptLineWriter
  msgs : List String
deriving DecidableEq

def OptLineWriter.mount_linewriter (fs : FS) (suffix : Option String)
    (print_message : Bool) (self : OptLineWriter) : MountResult :=
  match self.olw with
  | some _ => ⟨some self, []⟩
  | none =>
    match self.o_filename_base with
    | none => ⟨some self, []⟩
    | some b =>
      let filename := get_filename b self.use_rolling self.roll_idx suffix fs.now
      let msgs := if print_message then ["Log is written to " ++ filename] else []
      if fs.createOk filename then ⟨some { self with olw := some filename }, msgs⟩
      else ⟨none, msgs⟩

/-- `OptLineWriter::new`: resolve the directory, derive the filename base,
discover the starting roll index when rolling is enabled, then mount.
(`create_dir_all` and its one-time diagnostic are summarized by the
`dirIsDir` oracle, which answers the subsequent `metadata(..).is_dir()`.) -/
def OptLineWriter.new (fs : FS) (config : LogConfig) : MountResult :=
  if !config.log_to_file then ⟨some ⟨none, none, false, 0, 0⟩, []⟩
  else
    let s_directory := match config.directory with
      | some dir => dir
      | none => "."
    let o_filename_base :=
      if fs.dirIsDir s_directory then
        some (get_filename_base s_directory config.o_discriminant fs.argv0)
      else none
    let (use_rolling, roll_idx) :=
      match o_filename_base with
      | none => (false, 0)
      | some b =>
        match config.rollover_size with
        | none => (false, 0)
        | some _ =>
          (true, get_next_roll_idx (fs.globResult (get_filename_pattern b config.suffix)))
    let olw : OptLineWriter :=
      ⟨none, o_filename_base, use_rolling, 0, roll_idx⟩
    olw.mount_linewriter fs config.suffix config.print_message

structure FlexiLogger where
  directives : List LogDirective
  o_filter : Option String
  config : LogConfig

/-- Effects of one `log` call.  The two stdout `println!` call sites are
tracked separately: `stdoutLines` for the Error/Info duplication of
`record.args()`, `mountMessages` for the `"Log is written to ..."` print
inside `mount_linewriter` (both go to stdout in the source). -/
structure LogEffects where
  fileWrites : List (String × String) := []
  stdoutLines : List String := []
  mountMessages : List String := []
  stderrLines : List String := []
deriving DecidableEq

def LogEffects.append (a b : LogEffects) : LogEffects :=
  ⟨a.fileWrites ++ b.fileWrites, a.stdoutLines ++ b.stdoutLines,
   a.mountMessages ++ b.mountMessages, a.stderrLines ++ b.stderrLines⟩

/-- Result of one `log` call; `panicked = true` models a Rust panic (the
effects recorded are those emitted before the panic). -/
structure LogResult where
  st : OptLineWriter
  eff : LogEffects
  panicked : Bool
deriving DecidableEq

/-- The content-filter check: `filter.is_match(&record.args().to_string())`. -/
def filterHit (fs : FS) (L : FlexiLogger) (record : LogRecord) : Bool :=
  match L.o_filter with
  | some pat => fs.regexIsMatch pat record.args
  | none => false

/-- The `match olw.olw` tail of `log`: write `msg` to the mounted file
(a failed `lw.write` panics), bump the byte counter when rolling, or drop
the line when unmounted. -/
def writeToFile (fs : FS) (st : OptLineWriter) (msg : String)
    (stdout mmsgs : List String) : LogResult :=
  match st.olw with
  | some fn =>
    if fs.writeOk fn then
      let st' :=
        if st.use_rolling then { st with written_bytes := st.written_bytes + msg.utf8ByteSize }
        else st
      ⟨st', { fileWrites := [(fn, msg)], stdoutLines := stdout, mountMessages := mmsgs }, false⟩
    else ⟨st, { stdoutLines := stdout, mountMessages := mmsgs }, true⟩
  | none => ⟨st, { stdoutLines := stdout, mountMessages := mmsgs }, false⟩

/-- The rotation check plus write of `log`:
`if olw.use_rolling && (olw.written_bytes > config.rollover_size.unwrap())`
then unmount, reset the counter, bump the index and remount. -/
def rollAndWrite (fs : FS) (L : FlexiLogger) (msg : String) (stdout : List String)
    (st : OptLineWriter) : LogResult :=
  if st.use_rolling then
    match L.config.rollover_size with
    | none => ⟨st, { stdoutLines := stdout }, true⟩
    | some t =>
      if st.written_bytes > t then
        let st1 : OptLineWriter :=
          { st with olw := none, written_bytes := 0, roll_idx := st.roll_idx + 1 }
        let mres := st1.mount_linewriter fs L.config.suffix L.config.print_message
        match mres.st? with
        | none => ⟨st1, { stdoutLines := stdout, mountMessages := mres.msgs }, true⟩
        | some st2 => writeToFile fs st2 msg stdout mres.msgs
      else writeToFile fs st msg stdout []
  else writeToFile fs st msg stdout []

/-- `FlexiLogger::log` (Log impl, src/lib.rs lines 259-303): enabled check,
content filter, format plus newline, Error/Info duplication to stdout, then
either the rolling-file path or the stderr fallback (`writeln!` adds a second
newline to the already newline-terminated msg). -/
def FlexiLogger.log (fs : FS) (L : FlexiLogger) (record : LogRecord)
    (st : OptLineWriter) : LogResult :=
  if !(fl_enabled L.directives record.level record.target) then ⟨st, {}, false⟩
  else if filterHit fs L record then ⟨st, {}, false⟩
  else
    let msg := L.config.format record ++ "\n"
    if L.config.log_to_file then
      let stdout :=
        if (L.config.duplicate_error && record.level == .Error)
            || (L.config.duplicate_info && record.level == .Info) then [record.args]
        else []
      rollAndWrite fs L msg stdout st
    else ⟨st, { stderrLines := [msg ++ "\n"] }, false⟩

/-- A sequence of `log` calls threaded through the writer state; stops at the
first panic. -/
def FlexiLogger.logMany (fs : FS) (L : FlexiLogger) (records : List LogRecord)
    (st : OptLineWriter) : LogResult :=
  match records with
  | [] => ⟨st, {}, false⟩
  | r :: rest =>
    let res := FlexiLogger.log fs L r st
    if res.panicked then res
    else
      let res2 := FlexiLogger.logMany fs L rest res.st
      ⟨res2.st, res.eff.append res2.eff, res2.panicked⟩

/-! ## The distilled rotation arithmetic

`rollStep` is the (roll_idx, written_bytes) evolution of one successful
`log` call on a rolling writer with threshold `t` and message byte size `w`;
`rollSteps` folds it over a write sequence. -/

def rollStep (t : Nat) (p : Nat × Nat) (w : Nat) : Nat × Nat :=
  if p.2 > t then (p.1 + 1, w) else (p.1, p.2 + w)

def rollSteps (t : Nat) (p : Nat × Nat) (ws : List Nat) : Nat × Nat :=
  ws.foldl (rollStep t) p

/-- The byte sizes of the formatted, newline-terminated messages of a record
sequence — the amounts `log` adds to `written_bytes`. -/
def msgSizes (L : FlexiLogger) (records : List LogRecord) : List Nat :=
  records.map (fun r => (L.config.format r ++ "\n").utf8ByteSize)

/-! ## Concrete scenarios used by individual claims -/

/-- The filesystem oracle of the C2 scenario: rotation files `myprog_1.log`
and `myprog_2.log` already exist in the log directory. -/
def c2FS : FS where
  argv0 := "./myprog"
  now := "_now"
  dirIsDir := fun _ => true
  globResult := fun p =>
    if p = "./myprog_*.log" then ["./myprog_1.log", "./myprog_2.log"] else []
  createOk := fun _ => true
  writeOk := fun _ => true
  regexIsMatch := fun _ _ => false

def c2Config : LogConfig :=
  { LogConfig.default with log_to_file := true, print_message := false,
                           rollover_size := some 100 }

/-- A filesystem on which no file can be created (C4's failed remount). -/
def c4FS : FS where
  argv0 := "./p"
  now := "_now"
  dirIsDir := fun _ => true
  globResult := fun _ => []
  createOk := fun _ => false
  writeOk := fun _ => true
  regexIsMatch := fun _ _ => false

def c4Logger : FlexiLogger :=
  ⟨[⟨none, .Trace⟩], none,
   { LogConfig.default with log_to_file := true, print_message := false,
                            rollover_size := some 10 }⟩

def c4State : OptLineWriter := ⟨some "./p_1.log", some "./p", true, 50, 1⟩

/-- A filesystem whose directory is broken and whose writes fail (C4's
degraded and write-failure scenarios). -/
def c4aFS : FS where
  argv0 := "./p"
  now := "_now"
  dirIsDir := fun _ => false
  globResult := fun _ => []
  createOk := fun _ => true
  writeOk := fun _ => false
  regexIsMatch := fun _ _ => false

def c4aLogger : FlexiLogger :=
  ⟨[⟨none, .Trace⟩], none,
   { LogConfig.default with log_to_file := true, print_message := false }⟩

def c5FS : FS where
  argv0 := "./p"
  now := "_now"
  dirIsDir := fun _ => true
  globResult := fun _ => []
  createOk := fun _ => true
  writeOk := fun _ => true
  regexIsMatch := fun _ _ => false

def c5Logger : FlexiLogger := ⟨[⟨none, .Trace⟩], none, LogConfig.default⟩

def c5bLogger : FlexiLogger :=
  ⟨[⟨none, .Trace⟩], none,
   { LogConfig.default with log_to_file := true, print_message := false,
                            rollover_size := some 10 }⟩

def c5cLogger : FlexiLogger := ⟨[], none, LogConfig.default⟩

def c8FS : FS where
  argv0 := "./p"
  now := "_now"
  dirIsDir := fun _ => true
  globResult := fun _ => []
  createOk := fun _ => true
  writeOk := fun _ => true
  regexIsMatch := fun _ _ => false

def c8Logger : FlexiLogger :=
  ⟨[⟨none, .Trace⟩], none,
   { LogConfig.default with log_to_file := true, print_message := false,
                            rollover_size := some 3 }⟩

def c8Records : List LogRecord := [⟨.Info, "t", "abc", "m"⟩, ⟨.Info, "t", "ab", "m"⟩]

def c8State : OptLineWriter := ⟨some "f0", some "./p", true, 0, 5⟩

/-! ## Lemmas about the matcher -/

theorem fl_enabled_aux_eq_find (level : LogLevel) (target : String) :
    ∀ ds : List LogDirective, fl_enabled_aux level target ds =
      (match ds.find? (fun d => dirMatches d target) with
       | some d => levelLE level d.level
       | none => false) := by
  intro ds
  induction ds with
  | nil => rfl
  | cons d rest ih =>
    cases hn : d.name with
    | none =>
      simp only [fl_enabled_aux, hn, List.find?, dirMatches]
    | some name =>
      by_cases hsw : strStartsWith target name
      · simp only [fl_enabled_aux, hn, List.find?, dirMatches, hsw, if_pos, cond_true]
      · simp only [fl_enabled_aux, hn, List.find?, dirMatches, hsw, if_neg, cond_false,
          Bool.false_eq_true, not_false_iff, ih]

theorem find?_split {α : Type} (p : α → Bool) :
    ∀ (l : List α) (d : α), l.find? p = some d →
      ∃ l₁ l₂, l = l₁ ++ d :: l₂ ∧ (∀ x ∈ l₁, p x = false) ∧ p d = true := by
  intro l
  induction l with
  | nil => intro d h; simp [List.find?] at h
  | cons a rest ih =>
    intro d h
    by_cases hp : p a
    · rw [List.find?_cons_of_pos _ hp] at h
      cases h
      exact ⟨[], rest, rfl, by simp, hp⟩
    · rw [List.find?_cons_of_neg _ hp] at h
      obtain ⟨l₁, l₂, rfl, h1, h2⟩ := ih d h
      refine ⟨a :: l₁, l₂, rfl, ?_, h2⟩
      intro x hx
      rcases List.mem_cons.mp hx with rfl | hx'
      · exact Bool.eq_false_iff.mpr hp
      · exact h1 x hx'

theorem find_rev_longest (dirs : List LogDirective) (target : String) (d d' : LogDirective)
    (hs : List.Pairwise (fun a b => a.nameLen ≤ b.nameLen) dirs)
    (hfind : dirs.reverse.find? (fun x => dirMatches x target) = some d)
    (hd' : d' ∈ dirs) (hm : dirMatches d' target = true) :
    d'.nameLen ≤ d.nameLen := by
  have hrev : List.Pairwise (fun a b => b.nameLen ≤ a.nameLen) dirs.reverse :=
    List.pairwise_reverse.mpr hs
  obtain ⟨l₁, l₂, heq, hfail, _⟩ := find?_split _ _ _ hfind
  have hd'r : d' ∈ dirs.reverse := List.mem_reverse.mpr hd'
  rw [heq] at hd'r hrev
  rcases List.mem_append.mp hd'r with h1 | h2
  · exact absurd hm (by simp [hfail d' h1])
  · rcases List.mem_cons.mp h2 with rfl | h3
    · exact le_refl _
    · exact (List.pairwise_cons.mp (List.pairwise_append.mp hrev).2.1).1 d' h3

theorem fl_enabled_no_match (dirs : List LogDirective) (level : LogLevel) (target : String)
    (hnone : ∀ x ∈ dirs, dirMatches x target = false) :
    fl_enabled dirs level target = false := by
  have : dirs.reverse.find? (fun x => dirMatches x target) = none := by
    apply List.find?_eq_none.mpr
    intro x hx
    simp [hnone x (List.mem_reverse.mp hx)]
  rw [fl_enabled, fl_enabled_aux_eq_find, this]

/-! ## Lemmas about the sort in init -/

theorem insertSorted_mem (d x : LogDirective) :
    ∀ l, x ∈ insertSorted d l ↔ x = d ∨ x ∈ l := by
  intro l
  induction l with
  | nil => simp [insertSorted]
  | cons e rest ih =>
    by_cases h : d.nameLen < e.nameLen
    · simp only [insertSorted, if_pos h, List.mem_cons]
    · simp only [insertSorted, if_neg h, List.mem_cons, ih]
      tauto

theorem insertSorted_pairwise (d : LogDirective) :
    ∀ l, List.Pairwise (fun a b => a.nameLen ≤ b.nameLen) l →
      List.Pairwise (fun a b => a.nameLen ≤ b.nameLen) (insertSorted d l) := by
  intro l
  induction l with
  | nil => intro _; simp [insertSorted]
  | cons e rest ih =>
    intro h
    rcases List.pairwise_cons.mp h with ⟨he, hrest⟩
    by_cases hlt : d.nameLen < e.nameLen
    · rw [insertSorted, if_pos hlt]
      refine List.pairwise_cons.mpr ⟨?_, h⟩
      intro b hb
      rcases List.mem_cons.mp hb with rfl | hb'
      · exact le_of_lt hlt
      · exact le_trans (le_of_lt hlt) (he b hb')
    · rw [insertSorted, if_neg hlt]
      refine List.pairwise_cons.mpr ⟨?_, ih hrest⟩
      intro b hb
      rcases (insertSorted_mem d b rest).mp hb with rfl | hb'
      · omega
      · exact he b hb'

theorem sortDirectives_pairwise (l : List LogDirective) :
    List.Pairwise (fun a b => a.nameLen ≤ b.nameLen) (sortDirectives l) := by
  suffices h : ∀ acc, List.Pairwise (fun a b => a.nameLen ≤ b.nameLen) acc →
      List.Pairwise (fun a b => a.nameLen ≤ b.nameLen)
        (l.foldl (fun acc d => insertSorted d acc) acc) by
    exact h [] (by simp)
  induction l with
  | nil => intro acc hacc; exact hacc
  | cons d rest ih =>
    intro acc hacc
    exact ih (insertSorted d acc) (insertSorted_pairwise d acc hacc)

/-! ## Lemmas about initMaxLevel -/

theorem foldl_llfMax_le (ls : List LogLevelFilter) :
    ∀ a : LogLevelFilter, a.toNat ≤ (ls.foldl llfMax a).toNat
      ∧ ∀ x ∈ ls, x.toNat ≤ (ls.foldl llfMax a).toNat := by
  induction ls with
  | nil => intro a; simp
  | cons b rest ih =>
    intro a
    have hstep : a.toNat ≤ (llfMax a b).toNat ∧ b.toNat ≤ (llfMax a b).toNat := by
      unfold llfMax; split <;> omega
    obtain ⟨h1, h2⟩ := ih (llfMax a b)
    refine ⟨le_trans hstep.1 h1, ?_⟩
    intro x hx
    rcases List.mem_cons.mp hx with rfl | hx'
    · exact le_trans hstep.2 h1
    · exact h2 x hx'

theorem foldl_llfMax_mem (ls : List LogLevelFilter) :
    ∀ a : LogLevelFilter, ls.foldl llfMax a = a ∨ ls.foldl llfMax a ∈ ls := by
  induction ls with
  | nil => intro a; simp
  | cons b rest ih =>
    intro a
    rcases ih (llfMax a b) with h | h
    · rw [List.foldl_cons, h]
      unfold llfMax
      split
      · right; exact List.mem_cons_self _ _
      · left; rfl
    · right
      exact List.mem_cons_of_mem _ h

theorem initMaxLevel_ge (dirs : List LogDirective) (d : LogDirective) (hd : d ∈ dirs) :
    d.level.toNat ≤ (initMaxLevel dirs).toNat := by
  cases dirs with
  | nil => cases hd
  | cons e rest =>
    rcases List.mem_cons.mp hd with rfl | hd'
    · exact (foldl_llfMax_le (rest.map (fun x => x.level)) d.level).1
    · exact (foldl_llfMax_le (rest.map (fun x => x.level)) e.level).2 d.level
        (List.mem_map.mpr ⟨d, hd', rfl⟩)

theorem initMaxLevel_mem (dirs : List LogDirective) (hne : dirs ≠ []) :
    initMaxLevel dirs ∈ dirs.map (fun x => x.level) := by
  cases dirs with
  | nil => exact absurd rfl hne
  | cons e rest =>
    have hi : initMaxLevel (e :: rest)
        = (rest.map (fun x => x.level)).foldl llfMax e.level := rfl
    rcases foldl_llfMax_mem (rest.map (fun x => x.level)) e.level with h | h
    · rw [hi, h, List.map_cons]
      exact List.mem_cons_self _ _
    · rw [hi, List.map_cons]
      exact List.mem_cons_of_mem _ h

theorem fl_enabled_above_all (dirs : List LogDirective) (level : LogLevel) (target : String)
    (hab : ∀ x ∈ dirs, x.level.toNat < level.toNat) :
    fl_enabled dirs level target = false := by
  rw [fl_enabled, fl_enabled_aux_eq_find]
  cases hf : dirs.reverse.find? (fun x => dirMatches x target) with
  | none => rfl
  | some x =>
    have hx : x ∈ dirs := List.mem_reverse.mp (List.mem_of_find?_eq_some hf)
    have := hab x hx
    simp only [levelLE, decide_eq_false_iff_not]
    omega

/-! ## Claim theorems: the matcher -/

/-- C1.  For a directive list sorted ascending by prefix length, the enabled
check is decided by the first directive in the longest-to-shortest scan whose
prefix is absent or is a literal prefix of the module path (`find?` over the
reversed list): enabled iff `level <= that directive's level`; the deciding
directive has maximal prefix length among all matching directives; and when
no directive matches, the result is disabled. -/
theorem C1_longest_match_decides
    (dirs : List LogDirective) (level : LogLevel) (target : String) (d d' : LogDirective)
    (hs : List.Pairwise (fun a b => a.nameLen ≤ b.nameLen) dirs)
    (hfind : dirs.reverse.find? (fun x => dirMatches x target) = some d)
    (hd' : d' ∈ dirs) (hm : dirMatches d' target = true)
    (dirs₂ : List LogDirective) (level₂ : LogLevel) (target₂ : String)
    (hnone : ∀ x ∈ dirs₂, dirMatches x target₂ = false) :
    fl_enabled dirs level target = levelLE level d.level
    ∧ d'.nameLen ≤ d.nameLen
    ∧ fl_enabled dirs₂ level₂ target₂ = false := by
  refine ⟨?_, find_rev_longest dirs target d d' hs hfind hd' hm,
    fl_enabled_no_match dirs₂ level₂ target₂ hnone⟩
  rw [fl_enabled, fl_enabled_aux_eq_find, hfind]

/-- Witness for C1 at a concrete sorted directive list. -/
theorem C1_longest_match_decides_witness :
    fl_enabled [⟨some "a", .Error⟩, ⟨some "a::b", .Debug⟩] .Warn "a::b"
        = levelLE .Warn LogLevelFilter.Debug
    ∧ LogDirective.nameLen ⟨some "a", .Error⟩ ≤ LogDirective.nameLen ⟨some "a::b", .Debug⟩
    ∧ fl_enabled [⟨some "x", .Info⟩] .Error "y" = false :=
  C1_longest_match_decides
    [⟨some "a", .Error⟩, ⟨some "a::b", .Debug⟩] .Warn "a::b"
    ⟨some "a::b", .Debug⟩ ⟨some "a", .Error⟩
    (by decide) (by decide) (by decide) (by decide)
    [⟨some "x", .Info⟩] .Error "y" (by decide)

/-- C7 fails as stated: in the set parsed from "a=error,a::b=debug" the module
"a::b" matches the directive (a, Error), whose declared minimum level Error
would disable Warn, yet the enabled check (decided by the longer prefix
a::b=debug) enables Warn. -/
theorem C7_roundtrip_counterexample :
    (⟨some "a", .Error⟩ : LogDirective) ∈ initDirectives (fun _ => true) "a=error,a::b=debug"
    ∧ dirMatches ⟨some "a", .Error⟩ "a::b" = true
    ∧ levelLE .Warn LogLevelFilter.Error = false
    ∧ fl_enabled (initDirectives (fun _ => true) "a=error,a::b=debug") .Warn "a::b" = true := by
  decide

/-- C7 amended.  For every DirectiveSet produced by parsing and sorting (as
init does), and every (level, module) pair, the enabled check reproduces the
declared minimum level of the deciding directive — the first matching one in
the longest-to-shortest scan, which has maximal prefix length among all
matching directives: levels at or below it enabled, strictly above disabled. -/
theorem C7_roundtrip_longest (ro : String → Bool) (spec : String)
    (level : LogLevel) (module : String) (d d' : LogDirective)
    (hfind : (initDirectives ro spec).reverse.find? (fun x => dirMatches x module) = some d)
    (hd' : d' ∈ initDirectives ro spec) (hm : dirMatches d' module = true) :
    fl_enabled (initDirectives ro spec) level module = levelLE level d.level
    ∧ d'.nameLen ≤ d.nameLen := by
  have hs := sortDirectives_pairwise (parse_logging_spec ro spec).dirs
  refine ⟨?_, find_rev_longest _ module d d' hs hfind hd' hm⟩
  rw [fl_enabled, fl_enabled_aux_eq_find, hfind]

/-- Witness for the amended C7 on the parse of "a=info". -/
theorem C7_roundtrip_longest_witness :
    fl_enabled (initDirectives (fun _ => true) "a=info") .Debug "a::c"
        = levelLE .Debug LogLevelFilter.Info
    ∧ LogDirective.nameLen ⟨some "a", .Info⟩ ≤ LogDirective.nameLen ⟨some "a", .Info⟩ :=
  C7_roundtrip_longest (fun _ => true) "a=info" .Debug "a::c"
    ⟨some "a", .Info⟩ ⟨some "a", .Info⟩ (by decide) (by decide) (by decide)

/-- C9.  After init, the facade's global maximum level is the maximum of the
parsed directives' levels (Off when there are none); records whose level is
above every directive's level are rejected by the facade's max-level gate and
are likewise disabled by the logger's own check. -/
theorem C9_max_level (dirs : List LogDirective) (d : LogDirective)
    (level : LogLevel) (target : String)
    (hd : d ∈ dirs) (hne : dirs ≠ [])
    (hab : ∀ x ∈ dirs, x.level.toNat < level.toNat) :
    initMaxLevel [] = LogLevelFilter.Off
    ∧ d.level.toNat ≤ (initMaxLevel dirs).toNat
    ∧ initMaxLevel dirs ∈ dirs.map (fun x => x.level)
    ∧ facadeAccepts (initMaxLevel dirs) level = false
    ∧ fl_enabled dirs level target = false := by
  refine ⟨rfl, initMaxLevel_ge dirs d hd, initMaxLevel_mem dirs hne, ?_,
    fl_enabled_above_all dirs level target hab⟩
  obtain ⟨x, hx, hxe⟩ := List.mem_map.mp (initMaxLevel_mem dirs hne)
  have := hab x hx
  simp only [facadeAccepts, decide_eq_false_iff_not]
  rw [← hxe]
  omega

/-! ## Lemmas about splitting and the rule loop -/

theorem strMk_data (s : String) : String.mk s.data = s := rfl

theorem strData_append (a b : String) : (a ++ b).data = a.data ++ b.data := rfl

theorem strLength_data (s : String) : s.length = s.data.length := rfl

theorem splitCharAux_no_sep (sep : Char) :
    ∀ cs acc, sep ∉ cs → splitCharAux sep cs acc = [acc.reverse ++ cs] := by
  intro cs
  induction cs with
  | nil => intro acc _; simp [splitCharAux]
  | cons c cs ih =>
    intro acc h
    have hc : ¬ c = sep := fun he => h (he ▸ List.mem_cons_self c cs)
    have hcs : sep ∉ cs := fun hm => h (List.mem_cons_of_mem c hm)
    rw [splitCharAux, if_neg hc, ih (c :: acc) hcs]
    simp

theorem splitChar_no_sep (sep : Char) (s : String) (h : sep ∉ s.data) :
    splitChar sep s = [s] := by
  rw [splitChar, splitCharAux_no_sep sep s.data [] h]
  simp [strMk_data]

theorem splitCharAux_sep_end (sep : Char) :
    ∀ cs acc, sep ∉ cs → splitCharAux sep (cs ++ [sep]) acc = [acc.reverse ++ cs, []] := by
  intro cs
  induction cs with
  | nil =>
    intro acc _
    simp [splitCharAux]
  | cons c cs ih =>
    intro acc h
    have hc : ¬ c = sep := fun he => h (he ▸ List.mem_cons_self c cs)
    have hcs : sep ∉ cs := fun hm => h (List.mem_cons_of_mem c hm)
    rw [List.cons_append, splitCharAux, if_neg hc, ih (c :: acc) hcs]
    simp

theorem splitCharAux_length (sep : Char) :
    ∀ cs acc, (splitCharAux sep cs acc).length = cs.count sep + 1 := by
  intro cs
  induction cs with
  | nil => intro acc; simp [splitCharAux]
  | cons c cs ih =>
    intro acc
    by_cases hc : c = sep
    · rw [splitCharAux, if_pos hc, List.length_cons, ih []]
      simp [List.count_cons, hc]
    · rw [splitCharAux, if_neg hc, ih (c :: acc)]
      simp [List.count_cons, hc]

theorem splitChar_length (sep : Char) (s : String) :
    (splitChar sep s).length = s.data.count sep + 1 := by
  rw [splitChar, List.length_map, splitCharAux_length]

theorem processMods_append :
    ∀ l₁ l₂, processMods (l₁ ++ l₂)
      = ((processMods l₁).1 ++ (processMods l₂).1,
         (processMods l₁).2 ++ (processMods l₂).2) := by
  intro l₁ l₂
  induction l₁ with
  | nil => simp [processMods]
  | cons s rest ih =>
    rw [List.cons_append, processMods, ih, processMods]
    cases parseRule s <;> simp

/-- Witness for C9 with a single Warn directive and a Debug record. -/
theorem C9_max_level_witness :
    initMaxLevel [] = LogLevelFilter.Off
    ∧ LogLevelFilter.toNat LogLevelFilter.Warn
        ≤ (initMaxLevel [⟨none, .Warn⟩]).toNat
    ∧ initMaxLevel [⟨none, .Warn⟩]
        ∈ [(⟨none, .Warn⟩ : LogDirective)].map (fun x => x.level)
    ∧ facadeAccepts (initMaxLevel [⟨none, .Warn⟩]) .Debug = false
    ∧ fl_enabled [⟨none, .Warn⟩] .Debug "x" = false :=
  C9_max_level [⟨none, .Warn⟩] ⟨none, .Warn⟩ .Debug "x"
    (by decide) (by decide) (by decide)

/-- The single-`/` shape of `parse_logging_spec`: no filter part, directives
and diagnostics come from the rule loop. -/
theorem parse_single (ro : String → Bool) (s m : String)
    (h : splitChar '/' s = [m]) :
    parse_logging_spec ro s
      = ⟨(processMods (splitChar ',' m)).1, none, (processMods (splitChar ',' m)).2⟩ := by
  simp only [parse_logging_spec, h]
  simp [compileFilter]

/-! ## Claim theorems: the parser -/

/-- C3.  Parsing "crate1,crate2::mod=debug/secret" yields two directives
(crate1 at the maximum level, crate2::mod at Debug) plus the content filter
compiled from "secret"; parsing "5" yields a single global directive at
Trace; parsing "foo=bar" yields zero directives and one diagnostic. -/
theorem C3_parse_examples (ro : String → Bool) (h : ro "secret" = true) :
    parse_logging_spec ro "crate1,crate2::mod=debug/secret"
        = ⟨[⟨some "crate1", .Trace⟩, ⟨some "crate2::mod", .Debug⟩], some "secret", []⟩
    ∧ parse_logging_spec ro "5" = ⟨[⟨none, .Trace⟩], none, []⟩
    ∧ parse_logging_spec ro "foo=bar" = ⟨[], none, [.invalidLevel "bar"]⟩ := by
  refine ⟨?_, rfl, rfl⟩
  have h1 : parse_logging_spec ro "crate1,crate2::mod=debug/secret"
      = ⟨[⟨some "crate1", .Trace⟩, ⟨some "crate2::mod", .Debug⟩],
         (compileFilter ro (some "secret")).1, (compileFilter ro (some "secret")).2⟩ := rfl
  rw [h1]
  simp [compileFilter, h]

/-- Witness for C3 with an oracle that compiles every pattern. -/
theorem C3_parse_examples_witness :
    parse_logging_spec (fun _ => true) "crate1,crate2::mod=debug/secret"
        = ⟨[⟨some "crate1", .Trace⟩, ⟨some "crate2::mod", .Debug⟩], some "secret", []⟩
    ∧ parse_logging_spec (fun _ => true) "5" = ⟨[⟨none, .Trace⟩], none, []⟩
    ∧ parse_logging_spec (fun _ => true) "foo=bar" = ⟨[], none, [.invalidLevel "bar"]⟩ :=
  C3_parse_examples (fun _ => true) rfl

/-- C6.  Error handling of the parser: (i) more than one '/' separator fails
the whole parse — no directives, one diagnostic; (ii) an unparseable rule
produces one diagnostic and is skipped without affecting the directives of
the other rules; (iii) with one '/', an uncompilable content-filter pattern
produces a diagnostic and the result carries no content filter. -/
theorem C6_parse_error_handling (ro : String → Bool) :
    (∀ s : String, 2 ≤ s.data.count '/' →
        parse_logging_spec ro s = ⟨[], none, [.tooManySlashes s]⟩)
    ∧ (∀ (l₁ l₂ : List String) (s : String) (dg : Diag), parseRule s = .bad dg →
        (processMods (l₁ ++ s :: l₂)).1 = (processMods (l₁ ++ l₂)).1
        ∧ (processMods (l₁ ++ s :: l₂)).2
            = (processMods l₁).2 ++ dg :: (processMods l₂).2)
    ∧ (∀ s m f : String, splitChar '/' s = [m, f] → ro f = false →
        parse_logging_spec ro s
          = ⟨(processMods (splitChar ',' m)).1, none,
             (processMods (splitChar ',' m)).2 ++ [.invalidRegex f]⟩) := by
  refine ⟨?_, ?_, ?_⟩
  · intro s hs
    have hl : 3 ≤ (splitChar '/' s).length := by
      rw [splitChar_length]
      omega
    simp only [parse_logging_spec]
    rw [if_pos hl]
  · intro l₁ l₂ s dg hbad
    have hps : processMods (s :: l₂) = ((processMods l₂).1, dg :: (processMods l₂).2) := by
      rw [processMods, hbad]
    rw [processMods_append l₁ (s :: l₂), processMods_append l₁ l₂, hps]
    exact ⟨rfl, rfl⟩
  · intro s m f hsp hro
    simp only [parse_logging_spec, hsp]
    simp [compileFilter, hro]

/-- Witness for C6: a double slash, a bad level token amid good rules, and an
uncompilable filter pattern. -/
theorem C6_parse_error_handling_witness :
    parse_logging_spec (fun _ => false) "a//b" = ⟨[], none, [.tooManySlashes "a//b"]⟩
    ∧ ((processMods (["ok"] ++ "foo=bar" :: ["x=debug"])).1
          = (processMods (["ok"] ++ ["x=debug"])).1
        ∧ (processMods (["ok"] ++ "foo=bar" :: ["x=debug"])).2
            = (processMods ["ok"]).2 ++ Diag.invalidLevel "bar" :: (processMods ["x=debug"]).2)
    ∧ parse_logging_spec (fun _ => false) "a=debug/((("
        = ⟨(processMods (splitChar ',' "a=debug")).1, none,
           (processMods (splitChar ',' "a=debug")).2 ++ [.invalidRegex "((("]⟩ :=
  ⟨(C6_parse_error_handling (fun _ => false)).1 "a//b" (by decide),
   (C6_parse_error_handling (fun _ => false)).2.1 ["ok"] ["x=debug"] "foo=bar"
     (.invalidLevel "bar") (by decide),
   (C6_parse_error_handling (fun _ => false)).2.2 "a=debug/(((" "a=debug" "((("
     (by decide) rfl⟩

/-- C10.  A rule "module=" (trailing '=' with empty level token) yields a
directive for that module at the maximum level with no diagnostic; empty rule
segments produced by leading, trailing or consecutive commas are silently
skipped without any diagnostic. -/
theorem C10_trailing_eq_and_empty_rules (ro : String → Bool) :
    (∀ m : String, '/' ∉ m.data → ',' ∉ m.data → '=' ∉ m.data →
        parse_logging_spec ro (m ++ "=") = ⟨[⟨some m, llf_max⟩], none, []⟩)
    ∧ (∀ l₁ l₂ : List String, processMods (l₁ ++ "" :: l₂) = processMods (l₁ ++ l₂))
    ∧ parse_logging_spec ro ",a,,b," = parse_logging_spec ro "a,b" := by
  refine ⟨?_, ?_, rfl⟩
  · intro m h1 h2 h3
    have hdata : (m ++ "=").data = m.data ++ ['='] := strData_append m "="
    have hnot : ∀ c : Char, c ∉ m.data → ¬ c = '=' → c ∉ (m ++ "=").data := by
      intro c hcm hce hmem
      rw [hdata] at hmem
      rcases List.mem_append.mp hmem with hh | hh
      · exact hcm hh
      · exact hce (List.mem_singleton.mp hh)
    have hsl : splitChar '/' (m ++ "=") = [m ++ "="] :=
      splitChar_no_sep '/' (m ++ "=") (hnot '/' h1 (by decide))
    have hscomma : splitChar ',' (m ++ "=") = [m ++ "="] :=
      splitChar_no_sep ',' (m ++ "=") (hnot ',' h2 (by decide))
    have hseq : splitChar '=' (m ++ "=") = [m, ""] := by
      rw [splitChar, hdata, splitCharAux_sep_end '=' m.data [] h3]
      simp [strMk_data]
    have hlen : ¬ (m ++ "=").length = 0 := by
      rw [strLength_data, hdata]
      simp
    have hrule : parseRule (m ++ "=") = .dir (some m) llf_max := by
      rw [parseRule, if_neg hlen, hseq]
      rfl
    have hpm : processMods [m ++ "="] = ([⟨some m, llf_max⟩], []) := by
      rw [processMods, hrule]
      rfl
    rw [parse_single ro (m ++ "=") (m ++ "=") hsl, hscomma, hpm]
  · intro l₁ l₂
    have h0 : processMods ("" :: l₂) = processMods l₂ := by
      rw [processMods]
      rfl
    rw [processMods_append l₁ ("" :: l₂), processMods_append l₁ l₂, h0]

/-- Witness for C10 at the module name "mymod" and a concrete rule list. -/
theorem C10_trailing_eq_and_empty_rules_witness :
    parse_logging_spec (fun _ => true) ("mymod" ++ "=")
        = ⟨[⟨some "mymod", llf_max⟩], none, []⟩
    ∧ processMods (["a"] ++ "" :: ["b=5"]) = processMods (["a"] ++ ["b=5"])
    ∧ parse_logging_spec (fun _ => true) ",a,,b,"
        = parse_logging_spec (fun _ => true) "a,b" :=
  ⟨(C10_trailing_eq_and_empty_rules (fun _ => true)).1 "mymod"
     (by decide) (by decide) (by decide),
   (C10_trailing_eq_and_empty_rules (fun _ => true)).2.1 ["a"] ["b=5"],
   (C10_trailing_eq_and_empty_rules (fun _ => true)).2.2⟩

/-! ## Claim theorem: the restart numbering bug (C2) -/

/-- C2 fails on the code: with existing rotation files `myprog_1.log` and
`myprog_2.log`, `get_next_roll_idx` returns 1, not 3 — the stems are split on
the literal `"_r"`, which never occurs in the `base_idx` names produced by
`get_filename`, so every index parse falls back to 0 — and the freshly
constructed writer therefore starts at index 1 (remounting the existing
`./myprog_1.log`). -/
theorem C2_restart_numbering_bug :
    get_next_roll_idx ["./myprog_1.log", "./myprog_2.log"] = 1
    ∧ get_next_roll_idx ["./myprog_1.log", "./myprog_2.log"] ≠ 3
    ∧ (OptLineWriter.new c2FS c2Config).st?
        = some ⟨some "./myprog_1.log", some "./myprog", true, 0, 1⟩ := by
  decide

/-! ## Lemmas about the writing path -/

/-- Whatever the rotation and write outcomes, the stdout duplication lines of
`writeToFile` are exactly the ones passed in. -/
theorem writeToFile_stdout (fs : FS) (st : OptLineWriter) (msg : String)
    (stdout mmsgs : List String) :
    (writeToFile fs st msg stdout mmsgs).eff.stdoutLines = stdout := by
  rw [writeToFile]
  split
  · split
    · rfl
    · rfl
  · rfl

/-- The duplication lines survive every branch of the rotation check: the
stdout duplication is independent of the rotation outcome. -/
theorem rollAndWrite_stdout (fs : FS) (L : FlexiLogger) (msg : String)
    (stdout : List String) (st : OptLineWriter) :
    (rollAndWrite fs L msg stdout st).eff.stdoutLines = stdout := by
  rw [rollAndWrite]
  split
  · split
    · rfl
    · split
      · dsimp only
        split
        · rfl
        · exact writeToFile_stdout _ _ _ _ _
      · exact writeToFile_stdout _ _ _ _ _
  · exact writeToFile_stdout _ _ _ _ _

/-- An unmounted writer drops the line: no file write, no panic, state kept. -/
theorem writeToFile_unmounted (fs : FS) (st : OptLineWriter) (msg : String)
    (stdout mmsgs : List String) (holw : st.olw = none) :
    writeToFile fs st msg stdout mmsgs
      = ⟨st, { stdoutLines := stdout, mountMessages := mmsgs }, false⟩ := by
  rw [writeToFile, holw]

/-- A failed write to a mounted file panics. -/
theorem writeToFile_writefail (fs : FS) (st : OptLineWriter) (msg : String)
    (stdout mmsgs : List String) (fn : String) (holw : st.olw = some fn)
    (hwk : fs.writeOk fn = false) :
    (writeToFile fs st msg stdout mmsgs).panicked = true := by
  rw [writeToFile, holw]
  simp [hwk]

/-- A remount whose `File::create` fails returns no writer: the unwrap
panics. -/
theorem mount_fail (fs : FS) (suffix : Option String) (pm : Bool)
    (st : OptLineWriter) (b : String) (holw : st.olw = none)
    (hb : st.o_filename_base = some b)
    (hc : fs.createOk (get_filename b st.use_rolling st.roll_idx suffix fs.now) = false) :
    (st.mount_linewriter fs suffix pm).st? = none := by
  rw [OptLineWriter.mount_linewriter, holw, hb]
  simp [hc]

/-! ## Claim theorems: failure semantics (C4) and duplication (C5) -/

/-- C4 fails on the code: at a rotation trigger whose new backing file cannot
be created (`createOk` always false), the `File::create(..).unwrap()` inside
`mount_linewriter` panics — the writer does not degrade to a dropped-writes
state. -/
theorem C4_failed_remount_counterexample :
    c4State.use_rolling = true
    ∧ c4State.written_bytes > 10
    ∧ c4FS.createOk (get_filename "./p" true 2 (some "log") "_now") = false
    ∧ (FlexiLogger.log c4FS c4Logger ⟨.Info, "t", "x", "m"⟩ c4State).panicked = true := by
  decide

/-- C4 amended.  A writer left without a filename base at construction (the
directory could not be resolved) drops every subsequent write without a
panic and without per-write diagnostics; but a rotation-triggered remount
whose new file cannot be created panics, as does a failed write to an
already-open file. -/
theorem C4_failure_semantics
    (fs : FS) (L : FlexiLogger) (r : LogRecord) (st : OptLineWriter)
    (he : fl_enabled L.directives r.level r.target = true)
    (hf : filterHit fs L r = false)
    (hfile : L.config.log_to_file = true)
    (hroll : st.use_rolling = false)
    (holw : st.olw = none)
    (fs₂ : FS) (L₂ : FlexiLogger) (r₂ : LogRecord) (st₂ : OptLineWriter)
    (t₂ : Nat) (b₂ : String)
    (he₂ : fl_enabled L₂.directives r₂.level r₂.target = true)
    (hf₂ : filterHit fs₂ L₂ r₂ = false)
    (hfile₂ : L₂.config.log_to_file = true)
    (hroll₂ : st₂.use_rolling = true)
    (ht₂ : L₂.config.rollover_size = some t₂)
    (hw₂ : st₂.written_bytes > t₂)
    (hb₂ : st₂.o_filename_base = some b₂)
    (hc₂ : fs₂.createOk
        (get_filename b₂ st₂.use_rolling (st₂.roll_idx + 1) L₂.config.suffix fs₂.now)
      = false)
    (fs₃ : FS) (L₃ : FlexiLogger) (r₃ : LogRecord) (st₃ : OptLineWriter) (fn₃ : String)
    (he₃ : fl_enabled L₃.directives r₃.level r₃.target = true)
    (hf₃ : filterHit fs₃ L₃ r₃ = false)
    (hfile₃ : L₃.config.log_to_file = true)
    (hroll₃ : st₃.use_rolling = false)
    (holw₃ : st₃.olw = some fn₃)
    (hwk₃ : fs₃.writeOk fn₃ = false) :
    ((FlexiLogger.log fs L r st).panicked = false
      ∧ (FlexiLogger.log fs L r st).eff.fileWrites = []
      ∧ (FlexiLogger.log fs L r st).eff.stderrLines = []
      ∧ (FlexiLogger.log fs L r st).eff.mountMessages = []
      ∧ (FlexiLogger.log fs L r st).st = st)
    ∧ (FlexiLogger.log fs₂ L₂ r₂ st₂).panicked = true
    ∧ (FlexiLogger.log fs₃ L₃ r₃ st₃).panicked = true := by
  refine ⟨?_, ?_, ?_⟩
  · have hlog : FlexiLogger.log fs L r st
        = ⟨st, { stdoutLines :=
            if ((L.config.duplicate_error && r.level == .Error)
                || (L.config.duplicate_info && r.level == .Info)) then [r.args]
            else [] }, false⟩ := by
      simp only [FlexiLogger.log, he, hf, hfile, Bool.not_true, Bool.false_eq_true,
        if_false, if_true]
      rw [rollAndWrite, hroll]
      simp only [Bool.false_eq_true, if_false]
      rw [writeToFile_unmounted fs st _ _ _ holw]
    rw [hlog]
    exact ⟨rfl, rfl, rfl, rfl, rfl⟩
  · simp only [FlexiLogger.log, he₂, hf₂, hfile₂, Bool.not_true, Bool.false_eq_true,
      if_false, if_true]
    rw [rollAndWrite, hroll₂]
    simp only [ht₂, if_true]
    rw [if_pos hw₂]
    rw [hroll₂] at hc₂
    have hm := mount_fail fs₂ L₂.config.suffix L₂.config.print_message
      ⟨none, st₂.o_filename_base, true, 0, st₂.roll_idx + 1⟩ b₂ rfl hb₂ hc₂
    rw [hm]
  · simp only [FlexiLogger.log, he₃, hf₃, hfile₃, Bool.not_true, Bool.false_eq_true,
      if_false, if_true]
    rw [rollAndWrite, hroll₃]
    simp only [Bool.false_eq_true, if_false]
    exact writeToFile_writefail fs₃ st₃ _ _ _ fn₃ holw₃ hwk₃

/-- Witness for the amended C4 at concrete degraded, remount-failure and
write-failure scenarios. -/
theorem C4_failure_semantics_witness :
    ((FlexiLogger.log c4aFS c4aLogger ⟨.Warn, "t", "x", "m"⟩
        ⟨none, none, false, 0, 0⟩).panicked = false
      ∧ (FlexiLogger.log c4aFS c4aLogger ⟨.Warn, "t", "x", "m"⟩
          ⟨none, none, false, 0, 0⟩).eff.fileWrites = []
      ∧ (FlexiLogger.log c4aFS c4aLogger ⟨.Warn, "t", "x", "m"⟩
          ⟨none, none, false, 0, 0⟩).eff.stderrLines = []
      ∧ (FlexiLogger.log c4aFS c4aLogger ⟨.Warn, "t", "x", "m"⟩
          ⟨none, none, false, 0, 0⟩).eff.mountMessages = []
      ∧ (FlexiLogger.log c4aFS c4aLogger ⟨.Warn, "t", "x", "m"⟩
          ⟨none, none, false, 0, 0⟩).st = ⟨none, none, false, 0, 0⟩)
    ∧ (FlexiLogger.log c4FS c4Logger ⟨.Info, "t", "x", "m"⟩ c4State).panicked = true
    ∧ (FlexiLogger.log c4aFS c4aLogger ⟨.Warn, "t", "x", "m"⟩
        ⟨some "f", some "./p", false, 0, 0⟩).panicked = true :=
  C4_failure_semantics
    c4aFS c4aLogger ⟨.Warn, "t", "x", "m"⟩ ⟨none, none, false, 0, 0⟩
    (by decide) (by decide) (by decide) (by decide) (by decide)
    c4FS c4Logger ⟨.Info, "t", "x", "m"⟩ c4State 10 "./p"
    (by decide) (by decide) (by decide) (by decide) (by decide) (by decide)
    (by decide) (by decide)
    c4aFS c4aLogger ⟨.Warn, "t", "x", "m"⟩ ⟨some "f", some "./p", false, 0, 0⟩ "f"
    (by decide) (by decide) (by decide) (by decide) (by decide) (by decide)

/-- C5 fails on the code: with error duplication configured and an enabled
Error-level record, nothing is duplicated to stdout when the primary
destination is stderr (`log_to_file = false`) — duplication is not
independent of the destination. -/
theorem C5_duplication_counterexample :
    c5Logger.config.duplicate_error = true
    ∧ c5Logger.config.log_to_file = false
    ∧ fl_enabled c5Logger.directives .Error "t" = true
    ∧ (FlexiLogger.log c5FS c5Logger ⟨.Error, "t", "boom", "m"⟩
        ⟨none, none, false, 0, 0⟩).eff.stdoutLines = [] := by
  decide

/-- C5 amended.  Only when the primary destination is the rolling file and
the record passes the enabled check and the content filter is the record's
argument text duplicated to stdout (for Error with duplicate_error, Info
with duplicate_info) — and then independently of the rotation outcome; with
the stderr destination nothing is duplicated, and a record that fails the
enabled check produces no effects at all. -/
theorem C5_duplication_semantics
    (fs : FS) (L : FlexiLogger) (r : LogRecord) (st : OptLineWriter)
    (he : fl_enabled L.directives r.level r.target = true)
    (hf : filterHit fs L r = false)
    (hfile : L.config.log_to_file = true)
    (hd : ((L.config.duplicate_error && r.level == .Error)
          || (L.config.duplicate_info && r.level == .Info)) = true)
    (fs₂ : FS) (L₂ : FlexiLogger) (r₂ : LogRecord) (st₂ : OptLineWriter)
    (hfile₂ : L₂.config.log_to_file = false)
    (fs₃ : FS) (L₃ : FlexiLogger) (r₃ : LogRecord) (st₃ : OptLineWriter)
    (he₃ : fl_enabled L₃.directives r₃.level r₃.target = false) :
    (FlexiLogger.log fs L r st).eff.stdoutLines = [r.args]
    ∧ (FlexiLogger.log fs₂ L₂ r₂ st₂).eff.stdoutLines = []
    ∧ (FlexiLogger.log fs₃ L₃ r₃ st₃).eff = ⟨[], [], [], []⟩ := by
  refine ⟨?_, ?_, ?_⟩
  · simp only [FlexiLogger.log, he, hf, hfile, Bool.not_true, Bool.false_eq_true,
      if_false, if_true, hd, rollAndWrite_stdout]
  · rw [FlexiLogger.log]
    split
    · rfl
    · split
      · rfl
      · dsimp only
        rw [hfile₂]
        rfl
  · rw [FlexiLogger.log, he₃]
    rfl

/-- Witness for the amended C5: duplication on the file path, none on the
stderr path, no effects for a disabled record. -/
theorem C5_duplication_semantics_witness :
    (FlexiLogger.log c5FS c5bLogger ⟨.Error, "t", "boom", "m"⟩
        ⟨some "f", some "./p", true, 0, 1⟩).eff.stdoutLines = ["boom"]
    ∧ (FlexiLogger.log c5FS c5Logger ⟨.Error, "t", "boom", "m"⟩
        ⟨none, none, false, 0, 0⟩).eff.stdoutLines = []
    ∧ (FlexiLogger.log c5FS c5cLogger ⟨.Error, "t", "boom", "m"⟩
        ⟨none, none, false, 0, 0⟩).eff = ⟨[], [], [], []⟩ :=
  C5_duplication_semantics
    c5FS c5bLogger ⟨.Error, "t", "boom", "m"⟩ ⟨some "f", some "./p", true, 0, 1⟩
    (by decide) (by decide) (by decide) (by decide)
    c5FS c5Logger ⟨.Error, "t", "boom", "m"⟩ ⟨none, none, false, 0, 0⟩ (by decide)
    c5FS c5cLogger ⟨.Error, "t", "boom", "m"⟩ ⟨none, none, false, 0, 0⟩
    (by decide)

/-! ## Claim theorem: rotation arithmetic (C8) -/

/-- C8 support: a successful remount yields the writer mounted on the new
file name. -/
theorem mount_ok (fs : FS) (suffix : Option String) (pm : Bool)
    (st : OptLineWriter) (b : String) (holw : st.olw = none)
    (hb : st.o_filename_base = some b)
    (hc : fs.createOk (get_filename b st.use_rolling st.roll_idx suffix fs.now) = true) :
    (st.mount_linewriter fs suffix pm).st?
      = some { st with olw := some (get_filename b st.use_rolling st.roll_idx suffix fs.now) } := by
  rw [OptLineWriter.mount_linewriter, holw, hb]
  simp [hc]

theorem writeToFile_ok (fs : FS) (st : OptLineWriter) (msg : String)
    (stdout mmsgs : List String) (fn : String) (holw : st.olw = some fn)
    (hw : fs.writeOk fn = true) (hroll : st.use_rolling = true) :
    writeToFile fs st msg stdout mmsgs
      = ⟨{ st with written_bytes := st.written_bytes + msg.utf8ByteSize },
         { fileWrites := [(fn, msg)], stdoutLines := stdout, mountMessages := mmsgs }, false⟩ := by
  rw [writeToFile, holw]
  simp [hw, hroll]

theorem log_rolling_step (fs : FS) (L : FlexiLogger) (r : LogRecord) (st : OptLineWriter)
    (t : Nat)
    (hcreate : ∀ f, fs.createOk f = true) (hwrite : ∀ f, fs.writeOk f = true)
    (he : fl_enabled L.directives r.level r.target = true)
    (hfilter : L.o_filter = none)
    (hfile : L.config.log_to_file = true)
    (ht : L.config.rollover_size = some t)
    (hroll : st.use_rolling = true)
    (b : String) (hbase : st.o_filename_base = some b)
    (fn : String) (holw : st.olw = some fn) :
    (FlexiLogger.log fs L r st).panicked = false
    ∧ (FlexiLogger.log fs L r st).st.use_rolling = true
    ∧ (FlexiLogger.log fs L r st).st.o_filename_base = some b
    ∧ (∃ fn', (FlexiLogger.log fs L r st).st.olw = some fn')
    ∧ ((FlexiLogger.log fs L r st).st.roll_idx,
       (FlexiLogger.log fs L r st).st.written_bytes)
        = rollStep t (st.roll_idx, st.written_bytes)
            ((L.config.format r ++ "\n").utf8ByteSize) := by
  have hf : filterHit fs L r = false := by rw [filterHit, hfilter]
  simp only [FlexiLogger.log, he, hf, hfile, Bool.not_true, Bool.false_eq_true,
    if_false, if_true]
  rw [rollAndWrite, hroll]
  simp only [ht, if_true]
  by_cases hgt : st.written_bytes > t
  · rw [if_pos hgt]
    have hm := mount_ok fs L.config.suffix L.config.print_message
      ⟨none, st.o_filename_base, true, 0, st.roll_idx + 1⟩ b rfl hbase (hcreate _)
    rw [hm]
    dsimp only
    rw [writeToFile_ok fs
      ⟨some (get_filename b true (st.roll_idx + 1) L.config.suffix fs.now),
       st.o_filename_base, true, 0, st.roll_idx + 1⟩
      (L.config.format r ++ "\n") _ _
      (get_filename b true (st.roll_idx + 1) L.config.suffix fs.now)
      rfl (hwrite _) rfl]
    refine ⟨rfl, rfl, hbase, ⟨_, rfl⟩, ?_⟩
    simp [rollStep, hgt]
  · rw [if_neg hgt]
    rw [writeToFile_ok fs st _ _ _ fn holw (hwrite fn) hroll]
    refine ⟨rfl, hroll, hbase, ⟨fn, holw⟩, ?_⟩
    simp [rollStep, hgt]

theorem rollSteps_cons (t : Nat) (p : Nat × Nat) (w : Nat) (ws : List Nat) :
    rollSteps t p (w :: ws) = rollSteps t (rollStep t p w) ws := rfl

theorem logMany_rolling (fs : FS) (L : FlexiLogger) (t : Nat)
    (hcreate : ∀ f, fs.createOk f = true) (hwrite : ∀ f, fs.writeOk f = true)
    (hfilter : L.o_filter = none) (hfile : L.config.log_to_file = true)
    (ht : L.config.rollover_size = some t) :
    ∀ (records : List LogRecord) (st : OptLineWriter),
      (∀ r ∈ records, fl_enabled L.directives r.level r.target = true) →
      st.use_rolling = true → (∃ b, st.o_filename_base = some b) →
      (∃ fn, st.olw = some fn) →
      (FlexiLogger.logMany fs L records st).panicked = false
      ∧ ((FlexiLogger.logMany fs L records st).st.roll_idx,
         (FlexiLogger.logMany fs L records st).st.written_bytes)
          = rollSteps t (st.roll_idx, st.written_bytes) (msgSizes L records) := by
  intro records
  induction records with
  | nil => intro st _ _ _ _; exact ⟨rfl, rfl⟩
  | cons r rest ih =>
    rintro st hen hroll ⟨b, hb⟩ ⟨fn, hfn⟩
    obtain ⟨hp, hu, hob, ⟨fn', hfn'⟩, hpair⟩ :=
      log_rolling_step fs L r st t hcreate hwrite (hen r (List.mem_cons_self r rest))
        hfilter hfile ht hroll b hb fn hfn
    obtain ⟨ihp, ihpair⟩ := ih (FlexiLogger.log fs L r st).st
      (fun r' hr' => hen r' (List.mem_cons_of_mem r hr')) hu ⟨b, hob⟩ ⟨fn', hfn'⟩
    rw [FlexiLogger.logMany]
    simp only [hp, Bool.false_eq_true, if_false]
    refine ⟨ihp, ?_⟩
    calc ((FlexiLogger.logMany fs L rest (FlexiLogger.log fs L r st).st).st.roll_idx,
          (FlexiLogger.logMany fs L rest (FlexiLogger.log fs L r st).st).st.written_bytes)
        = rollSteps t ((FlexiLogger.log fs L r st).st.roll_idx,
            (FlexiLogger.log fs L r st).st.written_bytes) (msgSizes L rest) := ihpair
      _ = rollSteps t (rollStep t (st.roll_idx, st.written_bytes)
            ((L.config.format r ++ "\n").utf8ByteSize)) (msgSizes L rest) := by rw [hpair]
      _ = rollSteps t (st.roll_idx, st.written_bytes) (msgSizes L (r :: rest)) := rfl

theorem rollSteps_fst_mono (t : Nat) :
    ∀ (ws : List Nat) (p : Nat × Nat), p.1 ≤ (rollSteps t p ws).1 := by
  intro ws
  induction ws with
  | nil => intro p; exact le_refl _
  | cons w ws ih =>
    intro p
    refine le_trans ?_ (ih (rollStep t p w))
    rw [rollStep]
    split <;> simp

theorem rollSteps_lower (t : Nat) :
    ∀ (ws : List Nat) (idx c : Nat),
      ((rollSteps t (idx, c) ws).1 - idx) * (t + 1) + (rollSteps t (idx, c) ws).2
        ≤ c + ws.sum := by
  intro ws
  induction ws with
  | nil => intro idx c; simp [rollSteps]
  | cons w ws ih =>
    intro idx c
    rw [rollSteps_cons, rollStep]
    by_cases hgt : c > t
    · simp only [hgt, if_pos]
      have hmono := rollSteps_fst_mono t ws (idx + 1, w)
      have hih := ih (idx + 1) w
      have hsplit : (rollSteps t (idx + 1, w) ws).1 - idx
          = ((rollSteps t (idx + 1, w) ws).1 - (idx + 1)) + 1 := by omega
      rw [hsplit, Nat.succ_mul]
      simp only [List.sum_cons]
      omega
    · simp only [hgt, if_neg, ite_false]
      have hih := ih idx (c + w)
      simp only [List.sum_cons]
      omega

theorem rollSteps_counter_le (t W : Nat) :
    ∀ (ws : List Nat) (idx c : Nat), (∀ w ∈ ws, w ≤ W) → c ≤ t + W →
      (rollSteps t (idx, c) ws).2 ≤ t + W := by
  intro ws
  induction ws with
  | nil => intro idx c _ hc; exact hc
  | cons w ws ih =>
    intro idx c hw hc
    rw [rollSteps_cons, rollStep]
    have hwW : w ≤ W := hw w (List.mem_cons_self w ws)
    by_cases hgt : c > t
    · simp only [hgt, if_pos]
      exact ih (idx + 1) w (fun x hx => hw x (List.mem_cons_of_mem w hx)) (by omega)
    · simp only [hgt, if_neg, ite_false]
      exact ih idx (c + w) (fun x hx => hw x (List.mem_cons_of_mem w hx)) (by omega)

theorem rollSteps_upper (t W : Nat) :
    ∀ (ws : List Nat) (idx c : Nat), (∀ w ∈ ws, w ≤ W) → c ≤ t + W →
      c + ws.sum ≤ ((rollSteps t (idx, c) ws).1 - idx) * (t + W)
        + (rollSteps t (idx, c) ws).2 := by
  intro ws
  induction ws with
  | nil => intro idx c _ _; simp [rollSteps]
  | cons w ws ih =>
    intro idx c hw hc
    rw [rollSteps_cons, rollStep]
    have hwW : w ≤ W := hw w (List.mem_cons_self w ws)
    by_cases hgt : c > t
    · simp only [hgt, if_pos]
      have hmono := rollSteps_fst_mono t ws (idx + 1, w)
      have hih := ih (idx + 1) w (fun x hx => hw x (List.mem_cons_of_mem w hx)) (by omega)
      have hsplit : (rollSteps t (idx + 1, w) ws).1 - idx
          = ((rollSteps t (idx + 1, w) ws).1 - (idx + 1)) + 1 := by omega
      rw [hsplit, Nat.succ_mul]
      simp only [List.sum_cons]
      omega
    · simp only [hgt, if_neg, ite_false]
      have hih := ih idx (c + w) (fun x hx => hw x (List.mem_cons_of_mem w hx)) (by omega)
      simp only [List.sum_cons]
      omega

/-- C8.  With rolling enabled and threshold t, over any sequence of enabled
writes the writer never panics and its (roll_idx, written_bytes) pair follows
`rollSteps`: each step either leaves the index unchanged and accumulates the
write, or — exactly when the counter already exceeds t — increments the index
by 1 and resets the counter to the new write; the index never decreases, the
remount count m satisfies m*(t+1) <= total bytes, and total bytes <=
(m+1)*(t+W) for any bound W on the write sizes (one write call's worth of
overshoot per rotation). -/
theorem C8_rotation_invariants
    (fs : FS) (L : FlexiLogger) (records : List LogRecord) (st : OptLineWriter)
    (t W : Nat) (b fn : String) (p q : Nat × Nat) (w w' : Nat)
    (hcreate : ∀ f, fs.createOk f = true) (hwrite : ∀ f, fs.writeOk f = true)
    (hfilter : L.o_filter = none) (hfile : L.config.log_to_file = true)
    (ht : L.config.rollover_size = some t)
    (hroll : st.use_rolling = true) (hbase : st.o_filename_base = some b)
    (holw : st.olw = some fn) (hzero : st.written_bytes = 0)
    (hen : ∀ r ∈ records, fl_enabled L.directives r.level r.target = true)
    (hW : ∀ s ∈ msgSizes L records, s ≤ W)
    (hp : p.2 > t) (hq : ¬ q.2 > t) :
    (FlexiLogger.logMany fs L records st).panicked = false
    ∧ ((FlexiLogger.logMany fs L records st).st.roll_idx,
       (FlexiLogger.logMany fs L records st).st.written_bytes)
        = rollSteps t (st.roll_idx, 0) (msgSizes L records)
    ∧ st.roll_idx ≤ (FlexiLogger.logMany fs L records st).st.roll_idx
    ∧ rollStep t p w = (p.1 + 1, w)
    ∧ rollStep t q w' = (q.1, q.2 + w')
    ∧ ((FlexiLogger.logMany fs L records st).st.roll_idx - st.roll_idx) * (t + 1)
        ≤ (msgSizes L records).sum
    ∧ (msgSizes L records).sum
        ≤ (((FlexiLogger.logMany fs L records st).st.roll_idx - st.roll_idx) + 1)
            * (t + W) := by
  obtain ⟨hpanic, hpair⟩ := logMany_rolling fs L t hcreate hwrite hfilter hfile ht
    records st hen hroll ⟨b, hbase⟩ ⟨fn, holw⟩
  rw [hzero] at hpair
  have h1 : (FlexiLogger.logMany fs L records st).st.roll_idx
      = (rollSteps t (st.roll_idx, 0) (msgSizes L records)).1 := congrArg Prod.fst hpair
  refine ⟨hpanic, hpair, ?_, ?_, ?_, ?_, ?_⟩
  · rw [h1]
    exact rollSteps_fst_mono t (msgSizes L records) (st.roll_idx, 0)
  · simp [rollStep, hp]
  · simp [rollStep, hq]
  · rw [h1]
    have := rollSteps_lower t (msgSizes L records) st.roll_idx 0
    omega
  · rw [h1, Nat.succ_mul]
    have hu := rollSteps_upper t W (msgSizes L records) st.roll_idx 0 hW (by omega)
    have hcle := rollSteps_counter_le t W (msgSizes L records) st.roll_idx 0 hW (by omega)
    omega

/-- Witness for C8: threshold 3, messages of 4 and 3 bytes, one rotation. -/
theorem C8_rotation_invariants_witness :
    (FlexiLogger.logMany c8FS c8Logger c8Records c8State).panicked = false
    ∧ ((FlexiLogger.logMany c8FS c8Logger c8Records c8State).st.roll_idx,
       (FlexiLogger.logMany c8FS c8Logger c8Records c8State).st.written_bytes)
        = rollSteps 3 (c8State.roll_idx, 0) (msgSizes c8Logger c8Records)
    ∧ c8State.roll_idx
        ≤ (FlexiLogger.logMany c8FS c8Logger c8Records c8State).st.roll_idx
    ∧ rollStep 3 (0, 4) 2 = (0 + 1, 2)
    ∧ rollStep 3 (0, 1) 2 = (0, 1 + 2)
    ∧ ((FlexiLogger.logMany c8FS c8Logger c8Records c8State).st.roll_idx
        - c8State.roll_idx) * (3 + 1)
        ≤ (msgSizes c8Logger c8Records).sum
    ∧ (msgSizes c8Logger c8Records).sum
        ≤ (((FlexiLogger.logMany c8FS c8Logger c8Records c8State).st.roll_idx
            - c8State.roll_idx) + 1) * (3 + 4) :=
  C8_rotation_invariants c8FS c8Logger c8Records c8State 3 4 "./p" "f0" (0, 4) (0, 1) 2 2
    (fun _ => rfl) (fun _ => rfl) rfl rfl rfl rfl rfl rfl rfl
    (by decide) (by decide) (by decide) (by decide)

end FlexiSpec
